import Mathlib

/-!
Verification of the WORK WORK time-tracking engine.

This file gives a shallow embedding of the engine state owned by
`MainWindow` (src/main.py) together with the history ledger owned by
`ConfigManager` (src/config_manager.py), and proves properties of the
operations the specification describes.

Modelling conventions:
- Clock times and float durations (`QElapsedTimer.nsecsElapsed() / 1e9`,
  `self.elapsed_seconds`) are modelled as rationals.
- `self.active_timer` is modelled as `runStartMark : Option Rat`:
  `some m` when the timer `isValid()` and was started at monotonic time
  `m`, `none` when invalidated; `nsecsElapsed()` at time `now` is
  `now - m`.
- Python `int(x)` truncation toward zero is `pyInt`.
- Side effects (playing a sound, showing an alert) are modelled as
  boolean outputs of the corresponding operation.
-/

/-- Engine state: the fields of `MainWindow` and `ConfigManager`
(src/main.py, src/config_manager.py) that the tracking engine mutates. -/
structure AppState where
  /-- `self.elapsed_seconds`: finished work seconds (float in source). -/
  elapsed_seconds : ℚ
  /-- `self.active_timer`: `some m` iff `isValid()`, started at time `m`. -/
  runStartMark : Option ℚ
  /-- `self.config.goal_time`. -/
  goal_time : ℤ
  /-- `self.goal_time_reached`. -/
  goal_time_reached : Bool
  /-- `self.max_time_reached`. -/
  max_time_reached : Bool
  /-- `self.idle_sound_played`. -/
  idle_sound_played : Bool
  /-- `self.config.play_sound_on_idle`. -/
  play_sound_on_idle : Bool
  /-- `self.config.idle_timeout`. -/
  idle_timeout : ℤ
  /-- `self.config.previous_time`. -/
  previous_time : ℤ
  /-- `self.config.time_history` (oldest first, as stored). -/
  time_history : List ℤ
deriving DecidableEq, Repr

/-- Python `int(x)` on a real number: truncation toward zero. -/
def pyInt (q : ℚ) : ℤ :=
  if 0 ≤ q then ⌊q⌋ else ⌈q⌉

/-- `max_time = 99 * 3600 + 59 * 60 + 59` (src/main.py line 648). -/
def maxTime : ℤ := 99 * 3600 + 59 * 60 + 59

/-- The total displayed/checked time: `self.elapsed_seconds` plus, when the
active timer is valid, `self.active_timer.nsecsElapsed() / 1e9`
(src/main.py lines 643-645, 694-696, 765-767, 1196-1199). -/
def totalSeconds (s : AppState) (now : ℚ) : ℚ :=
  s.elapsed_seconds +
    match s.runStartMark with
    | some m => now - m
    | none => 0

/-- The state-change section of `MainWindow.on_update`
(src/main.py lines 635-640): start the timer when counting should begin,
fold the elapsed segment into `elapsed_seconds` when it should stop. -/
def tickAccum (s : AppState) (now : ℚ) (should_count : Bool) : AppState :=
  match s.runStartMark, should_count with
  | none, true => { s with runStartMark := some now }
  | some m, false =>
      { s with elapsed_seconds := s.elapsed_seconds + (now - m),
               runStartMark := none }
  | _, _ => s

/-- The alerts section of `MainWindow.on_update` (src/main.py lines
647-658): latch-guarded max-time and goal-time alerts.  Returns the new
state together with `(goalFired, maxFired)`, the one-shot alert events. -/
def checkAlerts (s : AppState) (total : ℚ) : AppState × Bool × Bool :=
  let maxFired := !s.max_time_reached && decide ((maxTime : ℚ) ≤ total)
  let s1 := if maxFired then { s with max_time_reached := true } else s
  let goalFired := !s1.goal_time_reached &&
    decide ((s1.goal_time : ℚ) ≤ total) && decide (0 < s1.goal_time)
  let s2 := if goalFired then { s1 with goal_time_reached := true } else s1
  (s2, goalFired, maxFired)

/-- `MainWindow.on_update` (src/main.py lines 631-658), engine part:
timer state change followed by the alert checks on the recomputed total.
The UI section (lines 660-675) touches no engine state. -/
def on_update (s : AppState) (now : ℚ) (should_count : Bool) :
    AppState × Bool × Bool :=
  let s1 := tickAccum s now should_count
  checkAlerts s1 (totalSeconds s1 now)

/-- Run `on_update` over a sequence of ticks `(now, should_count)`. -/
def runTicks (s : AppState) : List (ℚ × Bool) → AppState
  | [] => s
  | (t, b) :: rest => runTicks (on_update s t b).1 rest

/-- Cumulative time during which `should_count` was true over a tick
sequence: between consecutive ticks, time counts exactly when the flag
sampled at the earlier tick was true.  `running` is the flag of the tick
taken at time `t`, just before the sequence. -/
def activeTimeFrom (running : Bool) (t : ℚ) : List (ℚ × Bool) → ℚ
  | [] => 0
  | (t', b') :: rest =>
      (if running then t' - t else 0) + activeTimeFrom b' t' rest

/-- Time of the last tick of a sequence (default `d` when empty). -/
def lastTime (d : ℚ) : List (ℚ × Bool) → ℚ
  | [] => d
  | (t, _) :: rest => lastTime t rest

/-- `ConfigManager.add_time_to_history` (src/config_manager.py lines
233-254): ignore non-positive values, move a duplicate to the newest
position, keep only the last five entries. -/
def add_time_to_history (hist : List ℤ) (seconds : ℤ) : List ℤ :=
  if seconds ≤ 0 then hist
  else
    let h1 := if seconds ∈ hist then hist.erase seconds else hist
    let h2 := h1 ++ [seconds]
    if 5 < h2.length then h2.drop (h2.length - 5) else h2

/-- `ConfigManager.get_time_history` (src/config_manager.py lines
256-262): the stored history reversed, newest first. -/
def get_time_history (hist : List ℤ) : List ℤ := hist.reverse

/-- Record a sequence of session totals in order. -/
def recordAll (hist : List ℤ) (xs : List ℤ) : List ℤ :=
  xs.foldl add_time_to_history hist

/-- `MainWindow.save_current_session` (src/main.py lines 686-700):
capture the truncated current total into the history when positive. -/
def save_current_session (s : AppState) (now : ℚ) : AppState :=
  let total := totalSeconds s now
  if 0 < total then
    { s with time_history := add_time_to_history s.time_history (pyInt total) }
  else s

/-- `MainWindow.save_data` (src/main.py lines 677-684), engine part:
persist `int(self.elapsed_seconds)` as the previous time (window geometry
is UI-only). -/
def save_data (s : AppState) : AppState :=
  { s with previous_time := pyInt s.elapsed_seconds }

/-- The commit branch of `MainWindow.change_current_time` (src/main.py
lines 1032-1050): save the session, overwrite `elapsed_seconds` with the
edited value, re-derive the goal latch from the new `elapsed_seconds`,
clear the max latch.  The active timer is not touched. -/
def change_current_time (s : AppState) (now : ℚ) (v : ℤ) : AppState :=
  let s1 := save_current_session s now
  let s2 := { s1 with elapsed_seconds := (v : ℚ) }
  let s3 :=
    if (s2.goal_time : ℚ) ≤ s2.elapsed_seconds ∧ 0 < s2.goal_time then
      { s2 with goal_time_reached := true }
    else
      { s2 with goal_time_reached := false }
  { s3 with max_time_reached := false }

/-- `MainWindow.resume_time_from_history` (src/main.py lines 1170-1188):
identical engine effect to a manual time edit, with the resumed value. -/
def resume_time_from_history (s : AppState) (now : ℚ) (time_seconds : ℤ) :
    AppState :=
  let s1 := save_current_session s now
  let s2 := { s1 with elapsed_seconds := (time_seconds : ℚ) }
  let s3 :=
    if (s2.goal_time : ℚ) ≤ s2.elapsed_seconds ∧ 0 < s2.goal_time then
      { s2 with goal_time_reached := true }
    else
      { s2 with goal_time_reached := false }
  { s3 with max_time_reached := false }

/-- `MainWindow.reset_time` (src/main.py lines 1190-1210): when the
current total is positive, save the session and data, zero
`elapsed_seconds` and clear both latches; otherwise do nothing.  The
active timer is not touched. -/
def reset_time (s : AppState) (now : ℚ) : AppState :=
  let total := totalSeconds s now
  if 0 < total then
    let s1 := save_current_session s now
    let s2 := save_data s1
    { s2 with elapsed_seconds := 0, goal_time_reached := false,
              max_time_reached := false }
  else s

/-- The commit branch of `MainWindow.set_goal_time` (src/main.py lines
995-999): store the new goal and unconditionally clear the goal latch.
Nothing else is changed. -/
def set_goal_time (s : AppState) (newGoal : ℤ) : AppState :=
  { s with goal_time := newGoal, goal_time_reached := false }

/-- `MainWindow.is_idle` (src/main.py lines 885-927), given the measured
idle duration in seconds.  Returns the new state, the idle verdict, and
whether the one-shot idle sound was triggered on this call. -/
def is_idle (s : AppState) (idle_duration : ℚ) : AppState × Bool × Bool :=
  if (s.idle_timeout : ℚ) ≤ idle_duration then
    if s.play_sound_on_idle && !s.idle_sound_played then
      ({ s with idle_sound_played := true }, true, true)
    else (s, true, false)
  else ({ s with idle_sound_played := false }, false, false)

/-- Fold `is_idle` over a sequence of measured idle durations, collecting
the sound-trigger events. -/
def soundEvents (s : AppState) : List ℚ → List Bool
  | [] => []
  | d :: ds =>
      let r := is_idle s d
      r.2.2 :: soundEvents r.1 ds

/-- Fold `is_idle` over a sequence of measured idle durations, returning
the final state. -/
def isIdleRun (s : AppState) : List ℚ → AppState
  | [] => s
  | d :: ds => isIdleRun (is_idle s d).1 ds

/-- The idle verdict for one measured duration: `idle_duration >=
idle_timeout`. -/
def idleAt (timeout : ℤ) (d : ℚ) : Bool := decide ((timeout : ℚ) ≤ d)

/-- Expected one-shot pattern: an event exactly at each tick that starts
a maximal idle span (idle now, not idle at the previous tick). -/
def spanStarts (timeout : ℤ) (prevIdle : Bool) : List ℚ → List Bool
  | [] => []
  | d :: ds =>
      (idleAt timeout d && !prevIdle) :: spanStarts timeout (idleAt timeout d) ds

/-- The idle verdict after the last tick of a duration sequence
(`prevIdle` when the sequence is empty). -/
def lastIdle (timeout : ℤ) (prevIdle : Bool) : List ℚ → Bool
  | [] => prevIdle
  | d :: ds => lastIdle timeout (idleAt timeout d) ds

/-- Fold `checkAlerts` over a sequence of observed totals, collecting the
`goalFired` events (the goal-alert side of src/main.py lines 647-658). -/
def goalFires (s : AppState) : List ℚ → List Bool
  | [] => []
  | t :: ts =>
      let r := checkAlerts s t
      r.2.1 :: goalFires r.1 ts

/-- Expected goal-alert pattern for a positive goal: fire exactly at the
first tick whose total is at or above the goal, never afterwards. -/
def firstCrossing (g : ℤ) : List ℚ → List Bool
  | [] => []
  | t :: ts =>
      if (g : ℚ) ≤ t then true :: ts.map (fun _ => false)
      else false :: firstCrossing g ts

/-- Fold `on_update` over a tick sequence and report whether any tick
fired the goal alert. -/
def anyGoalFire (s : AppState) : List (ℚ × Bool) → Bool
  | [] => false
  | (t, b) :: rest =>
      let r := on_update s t b
      r.2.1 || anyGoalFire r.1 rest

/-- A parsed JSON value, as produced by `json.loads` in
`ConfigManager._load_time_history` (numbers as exact rationals; Python
booleans are instances of `int` and therefore numeric). -/
inductive JsonVal where
  | jnum (q : ℚ)
  | jbool (b : Bool)
  | jstr (sv : String)
  | jnull
  | jarr (items : List JsonVal)
  | jobj (fields : List (String × JsonVal))

/-- The numeric value of a JSON element when `isinstance(t, (int, float))`
holds in Python: numbers themselves, and booleans (a Python `bool` is an
`int`, `True` being 1 and `False` 0). -/
def jsonNum : JsonVal → Option ℚ
  | .jnum q => some q
  | .jbool b => some (if b then 1 else 0)
  | _ => none

/-- Python `l[-5:]`: the last five elements (the whole list when shorter). -/
def lastFive (l : List ℤ) : List ℤ := l.drop (l.length - 5)

/-- `ConfigManager._load_time_history` (src/config_manager.py lines
217-231) on the parsed settings value: `none` models a failed
`json.loads` (the caught `JSONDecodeError`); a non-list value yields `[]`;
from a list, keep the numeric elements that are `> 0`, truncate each with
`int(...)`, and keep the last five. -/
def load_time_history (parsed : Option JsonVal) : List ℤ :=
  match parsed with
  | some (.jarr items) =>
      lastFive
        (((items.filterMap jsonNum).filter (fun q => decide (0 < q))).map pyInt)
  | some _ => []
  | none => []

/-- A fully concrete engine state used to instantiate theorems. -/
def baseState : AppState :=
  { elapsed_seconds := 0, runStartMark := none, goal_time := 0,
    goal_time_reached := false, max_time_reached := false,
    idle_sound_played := false, play_sound_on_idle := true,
    idle_timeout := 30, previous_time := 0, time_history := [] }

theorem checkAlerts_fst_elapsed (s : AppState) (total : ℚ) :
    ((checkAlerts s total).1).elapsed_seconds = s.elapsed_seconds := by
  simp only [checkAlerts]
  split <;> split <;> rfl

theorem checkAlerts_fst_mark (s : AppState) (total : ℚ) :
    ((checkAlerts s total).1).runStartMark = s.runStartMark := by
  simp only [checkAlerts]
  split <;> split <;> rfl

theorem checkAlerts_fst_goal_time (s : AppState) (total : ℚ) :
    ((checkAlerts s total).1).goal_time = s.goal_time := by
  simp only [checkAlerts]
  split <;> split <;> rfl

theorem totalSeconds_congr (a b : AppState) (t : ℚ)
    (h1 : a.elapsed_seconds = b.elapsed_seconds)
    (h2 : a.runStartMark = b.runStartMark) :
    totalSeconds a t = totalSeconds b t := by
  simp [totalSeconds, h1, h2]

theorem tickAccum_isSome (s : AppState) (now : ℚ) (b : Bool) :
    ((tickAccum s now b).runStartMark).isSome = b := by
  unfold tickAccum
  rcases h : s.runStartMark with _ | m <;> cases b <;> simp [h]

theorem totalSeconds_tickAccum (s : AppState) (now : ℚ) (b : Bool) :
    totalSeconds (tickAccum s now b) now = totalSeconds s now := by
  unfold tickAccum totalSeconds
  rcases h : s.runStartMark with _ | m <;> cases b <;> simp [h]

theorem totalSeconds_shift (s : AppState) (t t' : ℚ) :
    totalSeconds s t' =
      totalSeconds s t + (if s.runStartMark.isSome then t' - t else 0) := by
  unfold totalSeconds
  rcases h : s.runStartMark with _ | m <;> simp [h]
  ring

theorem on_update_fst_mark_isSome (s : AppState) (now : ℚ) (b : Bool) :
    (((on_update s now b).1).runStartMark).isSome = b := by
  unfold on_update
  rw [checkAlerts_fst_mark]
  exact tickAccum_isSome s now b

theorem on_update_totalSeconds (s : AppState) (now : ℚ) (b : Bool) :
    totalSeconds ((on_update s now b).1) now = totalSeconds s now := by
  unfold on_update
  rw [totalSeconds_congr _ (tickAccum s now b) now
    (checkAlerts_fst_elapsed _ _) (checkAlerts_fst_mark _ _)]
  exact totalSeconds_tickAccum s now b

theorem runTicks_totalSeconds (ticks : List (ℚ × Bool)) :
    ∀ (s : AppState) (t : ℚ),
      totalSeconds (runTicks s ticks) (lastTime t ticks) =
        totalSeconds s t + activeTimeFrom s.runStartMark.isSome t ticks := by
  induction ticks with
  | nil => intro s t; simp [runTicks, lastTime, activeTimeFrom]
  | cons tb rest ih =>
      obtain ⟨t', b'⟩ := tb
      intro s t
      simp only [runTicks, lastTime, activeTimeFrom]
      rw [ih ((on_update s t' b').1) t', on_update_fst_mark_isSome]
      have hshift := totalSeconds_shift s t t'
      have hstep : totalSeconds ((on_update s t' b').1) t' = totalSeconds s t' :=
        on_update_totalSeconds s t' b'
      rw [hstep, hshift]
      ring

/-- C1: starting Paused, for every sequence of `on_update` ticks the total
(`elapsed_seconds` plus the live segment when the active timer runs)
measured at the last tick equals the initial total plus exactly the
cumulative time during which `should_count` was true: a tick where the
flag becomes true starts the run mark, one where it becomes false folds
the segment into `elapsed_seconds`, matching states are no-ops, and
paused time never contributes. -/
theorem total_counts_exactly_active_time (s : AppState)
    (ticks : List (ℚ × Bool)) (hp : s.runStartMark = none) :
    totalSeconds (runTicks s ticks) (lastTime 0 ticks) =
      s.elapsed_seconds + activeTimeFrom false 0 ticks := by
  have h := runTicks_totalSeconds ticks s 0
  rw [hp] at h
  simpa [totalSeconds, hp] using h

/-- Witness for C1: a five-tick run with two active spans (0 to 12 and
20 to 25) accumulates exactly the active time. -/
theorem total_counts_exactly_active_time_w :
    totalSeconds
        (runTicks baseState [(0, true), (10, true), (12, false), (20, true), (25, false)])
        (lastTime 0 [(0, true), (10, true), (12, false), (20, true), (25, false)]) =
      baseState.elapsed_seconds +
        activeTimeFrom false 0 [(0, true), (10, true), (12, false), (20, true), (25, false)] :=
  total_counts_exactly_active_time baseState _ rfl

theorem getLast?_drop_of_lt {α : Type} (l : List α) :
    ∀ (k : ℕ), k < l.length → (l.drop k).getLast? = l.getLast? := by
  induction l with
  | nil => intro k hk; simp at hk
  | cons a t ih =>
      intro k hk
      cases k with
      | zero => simp
      | succ k2 =>
          simp only [List.drop_succ_cons]
          rw [ih k2 (by simpa using hk)]
          cases t with
          | nil => simp at hk
          | cons b t2 => simp [List.getLast?_cons_cons]

theorem capFive_length (l : List ℤ) :
    (if 5 < l.length then l.drop (l.length - 5) else l).length ≤ 5 := by
  split
  · simp only [List.length_drop]
    omega
  · omega

theorem capFive_getLast (l : List ℤ) (h : l ≠ []) :
    (if 5 < l.length then l.drop (l.length - 5) else l).getLast? = l.getLast? := by
  split
  · exact getLast?_drop_of_lt l _ (by cases l <;> simp_all <;> omega)
  · rfl

theorem capFive_nodup (l : List ℤ) (h : l.Nodup) :
    (if 5 < l.length then l.drop (l.length - 5) else l).Nodup := by
  split
  · exact h.sublist (List.drop_sublist _ _)
  · exact h

theorem add_time_nonpos (hist : List ℤ) (s : ℤ) (h : s ≤ 0) :
    add_time_to_history hist s = hist := by
  simp [add_time_to_history, h]

theorem add_time_length_le (hist : List ℤ) (s : ℤ) (h : 0 < s) :
    (add_time_to_history hist s).length ≤ 5 := by
  unfold add_time_to_history
  rw [if_neg (by omega)]
  exact capFive_length _

theorem add_time_getLast (hist : List ℤ) (s : ℤ) (h : 0 < s) :
    (add_time_to_history hist s).getLast? = some s := by
  unfold add_time_to_history
  rw [if_neg (by omega)]
  have := capFive_getLast ((if s ∈ hist then hist.erase s else hist) ++ [s])
    (by simp)
  dsimp only
  rw [this, List.getLast?_concat]

theorem add_time_nodup (hist : List ℤ) (s : ℤ) (hn : hist.Nodup) :
    (add_time_to_history hist s).Nodup := by
  unfold add_time_to_history
  split
  · exact hn
  · have h1n : (if s ∈ hist then hist.erase s else hist).Nodup := by
      split
      · exact hn.erase s
      · exact hn
    have hs : s ∉ (if s ∈ hist then hist.erase s else hist) := by
      split
      · intro hmem
        exact ((hn.mem_erase_iff).1 hmem).1 rfl
      · assumption
    have h2n : ((if s ∈ hist then hist.erase s else hist) ++ [s]).Nodup := by
      refine List.Nodup.append h1n (List.nodup_singleton s) ?_
      intro a ha hb
      rw [List.mem_singleton] at hb
      subst hb
      exact hs ha
    exact capFive_nodup _ h2n

/-- C5: `add_time_to_history` ignores non-positive values, otherwise
moves the value to the newest position while keeping the ledger within
five entries and duplicate-free, and `get_time_history` lists entries
newest-first: recording 10,20,30,40,50,60 into an empty ledger yields
the listing [60, 50, 40, 30, 20]. -/
theorem history_record_spec (hist : List ℤ) (s : ℤ) :
    (s ≤ 0 → add_time_to_history hist s = hist) ∧
    (0 < s → (add_time_to_history hist s).length ≤ 5) ∧
    (0 < s → (add_time_to_history hist s).getLast? = some s) ∧
    (hist.Nodup → (add_time_to_history hist s).Nodup) ∧
    get_time_history (recordAll [] [10, 20, 30, 40, 50, 60]) =
      [60, 50, 40, 30, 20] := by
  refine ⟨add_time_nonpos hist s, add_time_length_le hist s,
    add_time_getLast hist s, add_time_nodup hist s, ?_⟩
  decide

/-- Witness for C5: re-recording 3 into [1, 2, 3, 4, 5] keeps the ledger
duplicate-free and moves 3 to the newest position. -/
theorem history_record_spec_w :
    (add_time_to_history [1, 2, 3, 4, 5] 3).Nodup ∧
    (add_time_to_history [1, 2, 3, 4, 5] 3).getLast? = some 3 ∧
    (add_time_to_history [1, 2, 3, 4, 5] 3).length ≤ 5 :=
  ⟨(history_record_spec [1, 2, 3, 4, 5] 3).2.2.2.1 (by decide),
   (history_record_spec [1, 2, 3, 4, 5] 3).2.2.1 (by decide),
   (history_record_spec [1, 2, 3, 4, 5] 3).2.1 (by decide)⟩

/-- C9: a session whose total is strictly between 0 and 1 second is
truncated to 0 by `save_current_session` and therefore rejected by the
ledger's positivity check: the history is left completely unchanged. -/
theorem subsecond_session_not_recorded (s : AppState) (now : ℚ)
    (h0 : 0 < totalSeconds s now) (h1 : totalSeconds s now < 1) :
    (save_current_session s now).time_history = s.time_history := by
  unfold save_current_session
  rw [if_pos h0]
  have hz : pyInt (totalSeconds s now) = 0 := by
    unfold pyInt
    rw [if_pos h0.le]
    rw [Int.floor_eq_zero_iff]
    exact ⟨h0.le, h1⟩
  simp [hz, add_time_nonpos]

/-- Witness for C9: a paused state holding half a second of work leaves
the (empty) history untouched when captured. -/
theorem subsecond_session_not_recorded_w :
    (save_current_session { baseState with elapsed_seconds := 1/2 } 0).time_history =
      ({ baseState with elapsed_seconds := 1/2 } : AppState).time_history :=
  subsecond_session_not_recorded { baseState with elapsed_seconds := 1/2 } 0
    (by norm_num [totalSeconds, baseState]) (by norm_num [totalSeconds, baseState])

theorem save_current_session_fields (s : AppState) (now : ℚ) :
    (save_current_session s now).elapsed_seconds = s.elapsed_seconds ∧
    (save_current_session s now).runStartMark = s.runStartMark ∧
    (save_current_session s now).goal_time = s.goal_time ∧
    (save_current_session s now).goal_time_reached = s.goal_time_reached ∧
    (save_current_session s now).max_time_reached = s.max_time_reached := by
  refine ⟨?_, ?_, ?_, ?_, ?_⟩ <;>
    (unfold save_current_session; dsimp only; split <;> rfl)

theorem change_current_time_eq (s : AppState) (now : ℚ) (v : ℤ) :
    change_current_time s now v =
      { save_current_session s now with
          elapsed_seconds := (v : ℚ),
          goal_time_reached :=
            decide (((s.goal_time : ℚ) ≤ (v : ℚ)) ∧ 0 < s.goal_time),
          max_time_reached := false } := by
  unfold change_current_time
  dsimp only
  rw [(save_current_session_fields s now).2.2.1]
  split_ifs with h
  · simp only [decide_eq_true h]
  · simp only [decide_eq_false h]

theorem resume_time_from_history_eq (s : AppState) (now : ℚ) (v : ℤ) :
    resume_time_from_history s now v =
      { save_current_session s now with
          elapsed_seconds := (v : ℚ),
          goal_time_reached :=
            decide (((s.goal_time : ℚ) ≤ (v : ℚ)) ∧ 0 < s.goal_time),
          max_time_reached := false } := by
  unfold resume_time_from_history
  dsimp only
  rw [(save_current_session_fields s now).2.2.1]
  split_ifs with h
  · simp only [decide_eq_true h]
  · simp only [decide_eq_false h]

theorem totalSeconds_of_none (s : AppState) (t : ℚ)
    (h : s.runStartMark = none) : totalSeconds s t = s.elapsed_seconds := by
  simp [totalSeconds, h]

theorem totalSeconds_of_some (s : AppState) (t m : ℚ)
    (h : s.runStartMark = some m) :
    totalSeconds s t = s.elapsed_seconds + (t - m) := by
  simp [totalSeconds, h]

/-- A running state: active timer valid, started at time 0. -/
def markedState : AppState := { baseState with runStartMark := some 0 }

/-- Counterexample for C2: with the active timer running (mark at time
0), a manual time edit to 3 seconds leaves the timer valid, and two
monotonic seconds later the total reads 8, not the 3 that was set — the
in-flight Running segment is not discarded and the accumulator is not
Paused. -/
theorem set_total_not_paused_cex :
    (change_current_time markedState 0 3).runStartMark ≠ none ∧
    totalSeconds (change_current_time markedState 0 3) 5 ≠ 3 ∧
    (resume_time_from_history markedState 0 3).runStartMark ≠ none := by
  norm_num [change_current_time, resume_time_from_history, save_current_session,
    totalSeconds, markedState, baseState]
  exact Option.some_ne_none 0

/-- C2 (amended): a manual time edit or a history resume overwrites
`elapsed_seconds` with the given seconds but leaves the run state
unchanged: the active timer is neither started nor invalidated, so the
total afterwards is exactly the given seconds only when the accumulator
was Paused, and otherwise the given seconds plus the still-accruing
in-flight segment. -/
theorem set_total_keeps_run_state (s : AppState) (now now2 : ℚ) (v : ℤ) :
    (change_current_time s now v).elapsed_seconds = (v : ℚ) ∧
    (change_current_time s now v).runStartMark = s.runStartMark ∧
    (resume_time_from_history s now v).elapsed_seconds = (v : ℚ) ∧
    (resume_time_from_history s now v).runStartMark = s.runStartMark ∧
    (s.runStartMark = none →
      totalSeconds (change_current_time s now v) now2 = (v : ℚ)) ∧
    (∀ m, s.runStartMark = some m →
      totalSeconds (change_current_time s now v) now2 = (v : ℚ) + (now2 - m)) := by
  have hc := change_current_time_eq s now v
  have hr := resume_time_from_history_eq s now v
  have hm := (save_current_session_fields s now).2.1
  refine ⟨by rw [hc], ?_, by rw [hr], ?_, ?_, ?_⟩
  · rw [hc]; exact hm
  · rw [hr]; exact hm
  · intro h
    have hmark : (change_current_time s now v).runStartMark = none := by
      rw [hc]; exact hm.trans h
    rw [totalSeconds_of_none _ now2 hmark, hc]
  · intro m h
    have hmark : (change_current_time s now v).runStartMark = some m := by
      rw [hc]; exact hm.trans h
    rw [totalSeconds_of_some _ now2 m hmark, hc]

/-- Witness for C2 (amended): editing the time to 3 while running from
mark 0 yields, at time 5, a total of 3 + (5 - 0). -/
theorem set_total_keeps_run_state_w :
    totalSeconds (change_current_time markedState 0 3) 5 = (3 : ℚ) + (5 - 0) :=
  (set_total_keeps_run_state markedState 0 5 3).2.2.2.2.2 0 rfl

theorem reset_time_nonpos (s : AppState) (now : ℚ)
    (h : ¬ 0 < totalSeconds s now) : reset_time s now = s := by
  unfold reset_time
  dsimp only
  rw [if_neg h]

theorem reset_time_eq_pos (s : AppState) (now : ℚ)
    (h : 0 < totalSeconds s now) :
    reset_time s now =
      { save_data (save_current_session s now) with
          elapsed_seconds := 0, goal_time_reached := false,
          max_time_reached := false } := by
  unfold reset_time
  dsimp only
  rw [if_pos h]

/-- Counterexample for C3: resetting while the timer runs (elapsed 1,
mark 0, observed at time 2, total 3 > 0) leaves the timer valid, and the
total immediately after the reset is 2, not 0 — the accumulator is not
forced Paused. -/
theorem reset_not_paused_cex :
    0 < totalSeconds { baseState with elapsed_seconds := 1, runStartMark := some 0 } 2 ∧
    (reset_time { baseState with elapsed_seconds := 1, runStartMark := some 0 } 2).runStartMark ≠ none ∧
    totalSeconds (reset_time { baseState with elapsed_seconds := 1, runStartMark := some 0 } 2) 2 ≠ 0 := by
  norm_num [reset_time, save_current_session, save_data, totalSeconds,
    baseState, pyInt, add_time_to_history]
  exact Option.some_ne_none 0

/-- C3 (amended): `reset_time` is a no-op (never an error) when the
total is not positive; when the total is positive it zeroes
`elapsed_seconds` and clears both latches but leaves the run state
unchanged, so immediately after a non-trivial reset the total is 0
exactly when the accumulator was Paused (otherwise the in-flight segment
survives). -/
theorem reset_time_spec (s : AppState) (now : ℚ) :
    (¬ 0 < totalSeconds s now → reset_time s now = s) ∧
    (0 < totalSeconds s now →
      (reset_time s now).elapsed_seconds = 0 ∧
      (reset_time s now).goal_time_reached = false ∧
      (reset_time s now).max_time_reached = false ∧
      (reset_time s now).runStartMark = s.runStartMark ∧
      (s.runStartMark = none → totalSeconds (reset_time s now) now = 0)) := by
  refine ⟨reset_time_nonpos s now, fun h => ?_⟩
  have he := reset_time_eq_pos s now h
  have hm := (save_current_session_fields s now).2.1
  refine ⟨by rw [he], by rw [he], by rw [he], ?_, ?_⟩
  · rw [he]; exact hm
  · intro hp
    have hmark : (reset_time s now).runStartMark = none := by
      rw [he]; exact hm.trans hp
    rw [totalSeconds_of_none _ now hmark, he]

/-- Witness for C3 (amended): resetting a paused 5-second session gives
total 0. -/
theorem reset_time_spec_w :
    totalSeconds (reset_time { baseState with elapsed_seconds := 5 } 0) 0 = 0 :=
  ((reset_time_spec { baseState with elapsed_seconds := 5 } 0).2
    (by norm_num [totalSeconds, baseState])).2.2.2.2 rfl

/-- A state whose total (10) is at or above the goal 5 about to be set,
with both latches currently set. -/
def goalEditState : AppState :=
  { baseState with
    elapsed_seconds := 10
    goal_time := 3
    goal_time_reached := true
    max_time_reached := true }

/-- Counterexample for C4: editing the goal to 5 while the total is 10
(so the new goal, being positive, is already met) leaves the goalReached
latch false rather than re-deriving it to true, and leaves the maxReached
latch set rather than clearing it. -/
theorem set_goal_time_cex :
    (set_goal_time goalEditState 5).max_time_reached = true ∧
    (set_goal_time goalEditState 5).goal_time_reached = false ∧
    (5 : ℚ) ≤ totalSeconds (set_goal_time goalEditState 5) 0 ∧
    (0 : ℤ) < 5 := by
  norm_num [set_goal_time, totalSeconds, goalEditState, baseState]

/-- C4 (amended): a goal edit stores the new goal and unconditionally
clears the goalReached latch to false — it is not re-derived from the
current total (the alert simply re-fires on the next tick if the total
is at or above the new positive goal) — and the maxReached latch and all
other engine state are left unchanged. -/
theorem set_goal_time_spec (s : AppState) (g : ℤ) :
    (set_goal_time s g).goal_time = g ∧
    (set_goal_time s g).goal_time_reached = false ∧
    (set_goal_time s g).max_time_reached = s.max_time_reached ∧
    (set_goal_time s g).elapsed_seconds = s.elapsed_seconds ∧
    (set_goal_time s g).runStartMark = s.runStartMark :=
  ⟨rfl, rfl, rfl, rfl, rfl⟩

theorem checkAlerts_char (s : AppState) (t : ℚ) :
    (checkAlerts s t).2.1 = (!s.goal_time_reached &&
      decide ((s.goal_time : ℚ) ≤ t) && decide (0 < s.goal_time)) ∧
    ((checkAlerts s t).1).goal_time_reached =
      (s.goal_time_reached || (!s.goal_time_reached &&
        decide ((s.goal_time : ℚ) ≤ t) && decide (0 < s.goal_time))) := by
  simp only [checkAlerts]
  constructor
  · split <;> rfl
  · split <;> split <;> simp_all

theorem checkAlerts_latched (s : AppState) (t : ℚ)
    (h : s.goal_time_reached = true) :
    (checkAlerts s t).2.1 = false ∧
    ((checkAlerts s t).1).goal_time_reached = true := by
  have hc := checkAlerts_char s t
  rw [hc.1, hc.2, h]
  simp

theorem checkAlerts_fires (s : AppState) (t : ℚ)
    (h0 : s.goal_time_reached = false) (h1 : (s.goal_time : ℚ) ≤ t)
    (h2 : 0 < s.goal_time) :
    (checkAlerts s t).2.1 = true ∧
    ((checkAlerts s t).1).goal_time_reached = true := by
  have hc := checkAlerts_char s t
  rw [hc.1, hc.2, h0, decide_eq_true h1, decide_eq_true h2]
  simp

theorem checkAlerts_below (s : AppState) (t : ℚ)
    (h1 : ¬ (s.goal_time : ℚ) ≤ t) :
    (checkAlerts s t).2.1 = false ∧
    ((checkAlerts s t).1).goal_time_reached = s.goal_time_reached := by
  have hc := checkAlerts_char s t
  rw [hc.1, hc.2, decide_eq_false h1]
  simp

theorem checkAlerts_zero_goal (s : AppState) (t : ℚ)
    (h : s.goal_time = 0) :
    (checkAlerts s t).2.1 = false ∧
    ((checkAlerts s t).1).goal_time_reached = s.goal_time_reached := by
  have hc := checkAlerts_char s t
  rw [hc.1, hc.2, h]
  simp

theorem goalFires_latched (ts : List ℚ) :
    ∀ (s : AppState), s.goal_time_reached = true →
      goalFires s ts = ts.map (fun _ => false) := by
  induction ts with
  | nil => intro s h; rfl
  | cons t ts ih =>
      intro s h
      have hf := checkAlerts_latched s t h
      simp only [goalFires, List.map]
      rw [hf.1, ih _ hf.2]

theorem goalFires_unlatched (totals : List ℚ) :
    ∀ (s : AppState), s.goal_time_reached = false → 0 < s.goal_time →
      goalFires s totals = firstCrossing s.goal_time totals := by
  induction totals with
  | nil => intro s h0 hg; rfl
  | cons t ts ih =>
      intro s h0 hg
      simp only [goalFires, firstCrossing]
      by_cases hle : (s.goal_time : ℚ) ≤ t
      · rw [if_pos hle]
        have hf := checkAlerts_fires s t h0 hle hg
        rw [hf.1, goalFires_latched ts _ hf.2]
      · rw [if_neg hle]
        have hf := checkAlerts_below s t hle
        have hg2 : ((checkAlerts s t).1).goal_time = s.goal_time :=
          checkAlerts_fst_goal_time s t
        rw [hf.1, ih _ (hf.2.trans h0) (by rw [hg2]; exact hg), hg2]

theorem goalFires_zero_goal (totals : List ℚ) :
    ∀ (s : AppState), s.goal_time = 0 →
      goalFires s totals = totals.map (fun _ => false) := by
  induction totals with
  | nil => intro s h; rfl
  | cons t ts ih =>
      intro s h
      have hf := checkAlerts_zero_goal s t h
      simp only [goalFires, List.map]
      rw [hf.1, ih _ ((checkAlerts_fst_goal_time s t).trans h)]

/-- C6: over any sequence of observed totals, with a positive goal and a
clear latch the goal alert fires exactly once, at the first tick whose
total is at or above the goal, and never again afterwards (in particular
for monotonically non-decreasing totals); with goal 0 it never fires. -/
theorem goal_alert_fires_once (s : AppState) (totals : List ℚ) :
    (s.goal_time_reached = false → 0 < s.goal_time →
      goalFires s totals = firstCrossing s.goal_time totals) ∧
    (s.goal_time = 0 → goalFires s totals = totals.map (fun _ => false)) :=
  ⟨fun h0 hg => goalFires_unlatched totals s h0 hg,
   fun hz => goalFires_zero_goal totals s hz⟩

/-- A state with goal 5 and a clear goal latch. -/
def goalFiveState : AppState := { baseState with goal_time := 5 }

/-- Witness for C6: totals 3, 4, 5, 6 fire the goal alert exactly at the
third tick. -/
theorem goal_alert_fires_once_w :
    goalFires goalFiveState [3, 4, 5, 6] =
      firstCrossing goalFiveState.goal_time [3, 4, 5, 6] :=
  (goal_alert_fires_once goalFiveState [3, 4, 5, 6]).1 rfl (by decide)

theorem tickAccum_goal_reached (s : AppState) (now : ℚ) (b : Bool) :
    (tickAccum s now b).goal_time_reached = s.goal_time_reached := by
  unfold tickAccum
  rcases h : s.runStartMark with _ | m <;> cases b <;> simp [h]

theorem anyGoalFire_latched (ticks : List (ℚ × Bool)) :
    ∀ (s : AppState), s.goal_time_reached = true →
      anyGoalFire s ticks = false := by
  induction ticks with
  | nil => intro s h; rfl
  | cons tb rest ih =>
      obtain ⟨t, b⟩ := tb
      intro s h
      have h1 : (tickAccum s t b).goal_time_reached = true :=
        (tickAccum_goal_reached s t b).trans h
      have h2 := checkAlerts_latched (tickAccum s t b)
        (totalSeconds (tickAccum s t b) t) h1
      simp only [anyGoalFire, on_update]
      rw [h2.1, ih _ h2.2]
      rfl

/-- A state that is Running (mark 0) with goal 5 already latched. -/
def runningGoalState : AppState :=
  { baseState with
    runStartMark := some 0
    goal_time := 5
    goal_time_reached := true }

/-- Counterexample for C7: editing the time to 4 at monotonic time 2
while Running from mark 0 gives a post-edit total of 6, at or above the
positive goal 5, yet the goalReached latch is set to false (the code
compares only the new `elapsed_seconds`, not the total), and the very
next tick re-fires the goal alert. -/
theorem goal_latch_edit_cex :
    (change_current_time runningGoalState 2 4).goal_time_reached = false ∧
    ((change_current_time runningGoalState 2 4).goal_time : ℚ) ≤
      totalSeconds (change_current_time runningGoalState 2 4) 2 ∧
    0 < (change_current_time runningGoalState 2 4).goal_time ∧
    (on_update (change_current_time runningGoalState 2 4) 2 true).2.1 = true := by
  norm_num [change_current_time, save_current_session, totalSeconds,
    runningGoalState, baseState, pyInt, add_time_to_history, on_update,
    tickAccum, checkAlerts, maxTime]

/-- C7 (amended): a manual time edit or history resume re-derives the
goalReached latch from the new `elapsed_seconds` (not the full total):
false when the value is below the goal or the goal is 0, true when at or
above a positive goal; the edit itself fires no alert, and whenever the
latch comes out true no subsequent `on_update` tick ever re-fires the
goal alert.  (When the timer was Running, the undiscarded in-flight
segment can put the post-edit total at or above the goal while the latch
is set false, and then the next tick does fire — see the
counterexample.) -/
theorem goal_latch_rederived_on_edit (s : AppState) (now : ℚ) (v : ℤ)
    (ticks : List (ℚ × Bool)) :
    ((change_current_time s now v).goal_time_reached =
      decide (((s.goal_time : ℚ) ≤ (v : ℚ)) ∧ 0 < s.goal_time)) ∧
    ((resume_time_from_history s now v).goal_time_reached =
      decide (((s.goal_time : ℚ) ≤ (v : ℚ)) ∧ 0 < s.goal_time)) ∧
    ((change_current_time s now v).goal_time_reached = true →
      anyGoalFire (change_current_time s now v) ticks = false) ∧
    ((resume_time_from_history s now v).goal_time_reached = true →
      anyGoalFire (resume_time_from_history s now v) ticks = false) := by
  refine ⟨?_, ?_, fun h => anyGoalFire_latched ticks _ h,
    fun h => anyGoalFire_latched ticks _ h⟩
  · rw [change_current_time_eq]
  · rw [resume_time_from_history_eq]

/-- A paused state with 10 seconds of work and goal 5. -/
def pausedGoalState : AppState :=
  { baseState with elapsed_seconds := 10, goal_time := 5 }

/-- Witness for C7 (amended): editing the time to 7 with goal 5 latches
the goalReached flag, and the following ticks fire no goal alert. -/
theorem goal_latch_rederived_on_edit_w :
    anyGoalFire (change_current_time pausedGoalState 0 7) [(1, true), (2, true)] =
      false :=
  (goal_latch_rederived_on_edit pausedGoalState 0 7 [(1, true), (2, true)]).2.2.1
    (by rw [change_current_time_eq]; norm_num [pausedGoalState, baseState])

theorem is_idle_aux (ds : List ℚ) :
    ∀ (s : AppState) (prev : Bool),
      s.play_sound_on_idle = true → s.idle_sound_played = prev →
      soundEvents s ds = spanStarts s.idle_timeout prev ds ∧
      (isIdleRun s ds).idle_sound_played = lastIdle s.idle_timeout prev ds := by
  induction ds with
  | nil =>
      intro s prev hp hl
      exact ⟨rfl, by simpa [isIdleRun, lastIdle] using hl⟩
  | cons d ds ih =>
      intro s prev hp hl
      simp only [soundEvents, spanStarts, isIdleRun, lastIdle]
      by_cases hidle : (s.idle_timeout : ℚ) ≤ d
      · have hA : idleAt s.idle_timeout d = true := decide_eq_true hidle
        cases prev with
        | false =>
            have hstep : is_idle s d =
                ({ s with idle_sound_played := true }, true, true) := by
              unfold is_idle
              rw [if_pos hidle, if_pos (by rw [hp, hl]; rfl)]
            have hi := ih { s with idle_sound_played := true } true hp rfl
            exact ⟨by simp [hstep, hA, hi.1], by simp [hstep, hA, hi.2]⟩
        | true =>
            have hstep : is_idle s d = (s, true, false) := by
              unfold is_idle
              rw [if_pos hidle, if_neg (by rw [hp, hl]; simp)]
            have hi := ih s true hp hl
            exact ⟨by simp [hstep, hA, hi.1], by simp [hstep, hA, hi.2]⟩
      · have hA : idleAt s.idle_timeout d = false := decide_eq_false hidle
        have hstep : is_idle s d =
            ({ s with idle_sound_played := false }, false, false) := by
          unfold is_idle
          rw [if_neg hidle]
        have hi := ih { s with idle_sound_played := false } false hp rfl
        exact ⟨by simp [hstep, hA, hi.1], by simp [hstep, hA, hi.2]⟩

/-- C8: with sound-on-idle enabled and the latch initially clear, the
one-shot idle sound fires exactly at the ticks that start a maximal idle
span (idle now, not idle on the previous tick), never again within the
span, and the latch after the run equals the idle verdict of the last
tick — it is reset the moment a tick is no longer idle. -/
theorem idle_sound_once_per_span (s : AppState) (ds : List ℚ)
    (hplay : s.play_sound_on_idle = true)
    (hlatch : s.idle_sound_played = false) :
    soundEvents s ds = spanStarts s.idle_timeout false ds ∧
    (isIdleRun s ds).idle_sound_played = lastIdle s.idle_timeout false ds :=
  is_idle_aux ds s false hplay hlatch

/-- Witness for C8: with timeout 30, durations 0, 40, 50, 10, 35 contain
two idle spans; the sound fires exactly at their first ticks. -/
theorem idle_sound_once_per_span_w :
    soundEvents baseState [0, 40, 50, 10, 35] =
      spanStarts baseState.idle_timeout false [0, 40, 50, 10, 35] :=
  (idle_sound_once_per_span baseState [0, 40, 50, 10, 35] rfl rfl).1

/-- Counterexample for C10: the stored JSON list `[0.5]` passes the
`t > 0` filter but `int(0.5)` truncates to 0, so the loaded history
contains 0 — not a strictly positive integer. -/
theorem load_time_history_subsecond_cex :
    load_time_history (some (.jarr [.jnum (1/2)])) = [0] ∧
    ¬ (0 : ℤ) > 0 := by
  have h2 : pyInt (1/2 : ℚ) = 0 := by
    unfold pyInt
    rw [if_pos (by norm_num), Int.floor_eq_zero_iff]
    constructor <;> norm_num
  refine ⟨?_, by decide⟩
  simp only [load_time_history, jsonNum, lastFive, List.filterMap]
  norm_num [h2, List.filter]

/-- C10 (amended): the history loader is total on every parsed settings
value — a failed parse or a non-list value yields the empty list and
non-numeric elements are skipped — and its result keeps at most the 5
newest entries, every one of which is non-negative (each is the
truncation of a stored number that was strictly positive, so elements
strictly between 0 and 1 load as 0). -/
theorem load_time_history_bounds (parsed : Option JsonVal) :
    (load_time_history parsed).length ≤ 5 ∧
    (load_time_history parsed).all (fun x => decide (0 ≤ x)) = true ∧
    load_time_history none = [] := by
  refine ⟨?_, ?_, rfl⟩
  · cases parsed with
    | none => simp [load_time_history]
    | some v =>
        cases v <;>
          simp only [load_time_history, lastFive, List.length_drop,
            List.length_nil] <;> omega
  · cases parsed with
    | none => rfl
    | some v =>
        cases v with
        | jnum q => rfl
        | jbool b => rfl
        | jstr sv => rfl
        | jnull => rfl
        | jobj fields => rfl
        | jarr items =>
            rw [List.all_eq_true]
            intro x hx
            rw [decide_eq_true_eq]
            simp only [load_time_history, lastFive] at hx
            have hx2 : x ∈
                ((items.filterMap jsonNum).filter (fun q => decide (0 < q))).map
                  pyInt := List.mem_of_mem_drop hx
            obtain ⟨q, hq, rfl⟩ := List.mem_map.mp hx2
            have hq2 : 0 < q := of_decide_eq_true (List.mem_filter.mp hq).2
            unfold pyInt
            rw [if_pos hq2.le]
            exact Int.le_floor.mpr (by exact_mod_cast hq2.le)
